import Mathlib

/-!
Verification of the Ali intent engine (`src/ali_core/intent.py`).

The Python module is a single class `AliIntent` holding four pieces of
mutable state (intent patterns, behavior history, one-shot task queue,
recurring-task table).  Tasks are dictionaries with optional keys; we embed
them as a structure of `Option` fields.  Timestamps (`datetime.now()`,
ISO-format round trips) are embedded as integer seconds; `timedelta(hours=h)`
is `h * 3600` seconds.  File persistence (`save_intent_data`) is embedded as
a write counter plus the history trimming the Python function performs.
Calls to `random.random()` in the recurring-task sweep are embedded as an
oracle of boolean draws, one per recurring task slot.
-/

set_option maxRecDepth 4000

namespace Ali

/-- A task dictionary: every key the module reads is an optional field.
Absent key = `none`.  Extra keys the scheduler never reads are omitted. -/
structure Task where
  type_ : Option String := none
  content : Option String := none
  created : Option Int := none
  scheduled_time : Option Int := none
  remove_on_failure : Option Bool := none
  interval_hours : Option Int := none
  day_of_week : Option Int := none
  hour_of_day : Option Int := none
  trigger_pattern : Option String := none
  last_execution : Option Int := none
  active : Option Bool := none
deriving DecidableEq, Repr

/-- A record appended to `behavior_history`.  The scheduler itself only
produces `task_execution` records (`_execute_task`). -/
inductive BehaviorRecord where
  | taskExecution (task : Task) (timestamp : Int)
deriving DecidableEq, Repr

/-- An entry of `intent_patterns` (produced by `_analyze_behavior_patterns`,
inert for the claims verified here). -/
structure IntentPattern where
  ptype : String
  confidence : ℚ
  description : String
  identified : Int
deriving DecidableEq, Repr

/-- The mutable state of an `AliIntent` instance.  `save_count` counts the
persistence writes performed by `save_intent_data`. -/
structure EngineState where
  intent_patterns : List (String × IntentPattern) := []
  behavior_history : List BehaviorRecord := []
  task_queue : List Task := []
  recurring_tasks : List Task := []
  save_count : Nat := 0
deriving DecidableEq, Repr

/-- A fresh engine (`__init__` with no persisted data on disk). -/
def emptyEngine : EngineState := {}

/-- `_record_behavior` keeps the history bounded: after appending, if the
length exceeds 200, only the last 200 entries are kept. -/
def trimHistory (h : List BehaviorRecord) : List BehaviorRecord :=
  if h.length > 200 then h.drop (h.length - 200) else h

/-- `_record_behavior(behavior_data)`: append, then trim to the last 200. -/
def recordBehavior (s : EngineState) (b : BehaviorRecord) : EngineState :=
  { s with behavior_history := trimHistory (s.behavior_history ++ [b]) }

/-- `_execute_task(task)`: records a `task_execution` behavior entry, then
dispatches on `task["type"]` into handlers that only log, and returns
`True`.  No statement in the body can raise, so the `except` branch
returning `False` is unreachable and the embedding returns `true`. -/
def executeTask (s : EngineState) (now : Int) (task : Task) : Bool × EngineState :=
  (true, recordBehavior s (BehaviorRecord.taskExecution task now))

/-- Due test of `_process_task_queue`: a task is due when `scheduled_time`
is absent, or present and `now >= scheduled_time`. -/
def taskDue (now : Int) (t : Task) : Bool :=
  match t.scheduled_time with
  | some st => decide (st ≤ now)
  | none => true

/-- The enumeration loop of `_process_task_queue`: walks `enumerate(queue)`,
executes each due task, and collects (ascending) the indices to remove —
an index is collected when execution succeeded or `remove_on_failure`
(default `True`) is set. -/
def sweepLoop (now : Int) : List (Nat × Task) → EngineState → EngineState × List Nat
  | [], s => (s, [])
  | (i, task) :: rest, s =>
    match task.scheduled_time with
    | some st =>
      if st ≤ now then
        let r := executeTask s now task
        let r2 := sweepLoop now rest r.2
        if r.1 || task.remove_on_failure.getD true then (r2.1, i :: r2.2) else (r2.1, r2.2)
      else sweepLoop now rest s
    | none =>
      let r := executeTask s now task
      let r2 := sweepLoop now rest r.2
      if r.1 || task.remove_on_failure.getD true then (r2.1, i :: r2.2) else (r2.1, r2.2)

/-- Descending insertion, model of Python's `sorted(_, reverse=True)` step. -/
def insertDescNat (i : Nat) : List Nat → List Nat
  | [] => [i]
  | j :: js => if j ≤ i then i :: j :: js else j :: insertDescNat i js

/-- `sorted(tasks_to_remove, reverse=True)`. -/
def sortDesc (l : List Nat) : List Nat := l.foldr insertDescNat []

/-- `_process_task_queue`: execute due tasks collecting their indices, then
delete the collected indices from the queue in descending order. -/
def processTaskQueue (now : Int) (s : EngineState) : EngineState :=
  let r := sweepLoop now s.task_queue.enum s
  { r.1 with task_queue := (sortDesc r.2).foldl (fun q i => q.eraseIdx i) r.1.task_queue }

/-- Python `//` on the second count: day number of a timestamp. -/
def pyDate (t : Int) : Int := Int.fdiv t 86400

/-- Hour of day of a timestamp. -/
def pyHour (t : Int) : Int := Int.fdiv (Int.emod t 86400) 3600

/-- `datetime.weekday()`: Monday = 0; day 0 (1970-01-01) was a Thursday. -/
def pyWeekday (t : Int) : Int := Int.emod (pyDate t + 3) 7

/-- The `should_execute` computation of `_check_recurring_tasks`.  `draw`
stands for the outcome of `random.random() < 0.05` in the
`trigger_pattern` branch. -/
def shouldExecute (now : Int) (draw : Bool) (t : Task) : Bool :=
  match t.interval_hours with
  | some h =>
    match t.last_execution with
    | none => true
    | some le => decide (h * 3600 ≤ now - le)
  | none =>
    match t.day_of_week with
    | some d =>
      if pyWeekday now = d then
        if (match t.last_execution with
            | none => true
            | some le => decide (pyDate le ≠ pyDate now)) then
          match t.hour_of_day with
          | some hd => decide (pyHour now = hd)
          | none => true
        else false
      else false
    | none =>
      match t.trigger_pattern with
      | some _ => draw
      | none => false

/-- A recurring task fires when it is active (`task.get("active", True)`)
and `should_execute` holds. -/
def fires (now : Int) (draw : Bool) (t : Task) : Bool :=
  t.active.getD true && shouldExecute now draw t

/-- The iteration of `_check_recurring_tasks` over the recurring table,
threading the slot index for the draw oracle.  Returns the updated table
and the list of one-shot copies appended to the queue, in order. -/
def sweepRecurring (now : Int) (draws : Nat → Bool) : List Task → Nat → List Task × List Task
  | [], _ => ([], [])
  | t :: ts, i =>
    let rest := sweepRecurring now draws ts (i + 1)
    if t.active.getD true then
      if shouldExecute now (draws i) t then
        ({ t with last_execution := some now } :: rest.1,
         { t with scheduled_time := some now } :: rest.2)
      else (t :: rest.1, rest.2)
    else (t :: rest.1, rest.2)

/-- `_check_recurring_tasks`: on fire, append to the queue a copy of the
record stamped `scheduled_time = now`, and set `last_execution = now` on
the record itself. -/
def checkRecurringTasks (now : Int) (draws : Nat → Bool) (s : EngineState) : EngineState :=
  let r := sweepRecurring now draws s.recurring_tasks 0
  { s with recurring_tasks := r.1, task_queue := s.task_queue ++ r.2 }

/-- `save_intent_data`: trims the persisted history to the last 100 entries
when longer, writes the state to disk (counted), returns `True`. -/
def saveIntentData (s : EngineState) : Bool × EngineState :=
  let h := if s.behavior_history.length > 100 then
             s.behavior_history.drop (s.behavior_history.length - 100)
           else s.behavior_history
  (true, { s with behavior_history := h, save_count := s.save_count + 1 })

/-- `add_task(task_data)`: reject when `"type"` is absent; otherwise stamp
`created`, append to the queue, persist, return `True`. -/
def addTask (now : Int) (s : EngineState) (task_data : Task) : Bool × EngineState :=
  match task_data.type_ with
  | none => (false, s)
  | some _ =>
    let t := { task_data with created := some now }
    let s1 := { s with task_queue := s.task_queue ++ [t] }
    (true, (saveIntentData s1).2)

/-- `add_recurring_task(task_data)`: reject when `"type"` is absent, or when
none of `interval_hours`, `day_of_week`, `trigger_pattern` is present;
otherwise stamp `created`, set `active = True`, append to the recurring
table, persist, return `True`. -/
def addRecurringTask (now : Int) (s : EngineState) (task_data : Task) : Bool × EngineState :=
  match task_data.type_ with
  | none => (false, s)
  | some _ =>
    if task_data.interval_hours.isNone && task_data.day_of_week.isNone
        && task_data.trigger_pattern.isNone then
      (false, s)
    else
      let t := { task_data with created := some now, active := some true }
      let s1 := { s with recurring_tasks := s.recurring_tasks ++ [t] }
      (true, (saveIntentData s1).2)

/-- `remove_task(task_id)`: pop by positional index when the index is in the
current range, persist, return `True`; otherwise return `False`. -/
def removeTask (s : EngineState) (task_id : Int) : Bool × EngineState :=
  if 0 ≤ task_id ∧ task_id < (s.task_queue.length : Int) then
    let s1 := { s with task_queue := s.task_queue.eraseIdx task_id.toNat }
    (true, (saveIntentData s1).2)
  else (false, s)

/-- Outcome of one cycle body of `_background_loop`: either the three sweeps
complete, or an uncaught exception escapes the body. -/
inductive CycleOutcome where
  | ok
  | err
deriving DecidableEq, Repr

/-- Sleep chosen after a cycle: 10 seconds normally, a 60-second backoff
after a caught exception. -/
def cycleSleep : CycleOutcome → Nat
  | CycleOutcome.ok => 10
  | CycleOutcome.err => 60

/-- `_background_loop`: `while self.active:` re-checked at each cycle head
(`act k` is the flag value at the k-th check, cleared asynchronously by
`stop_background_processing`), body wrapped in `try/except`, the except
branch logging and sleeping the backoff.  `n` is the observation horizon;
the result is the list of sleeps of the executed cycles. -/
def backgroundLoop (act : Nat → Bool) (out : Nat → CycleOutcome) : Nat → Nat → List Nat
  | 0, _ => []
  | n + 1, k =>
    if act k then cycleSleep (out k) :: backgroundLoop act out n (k + 1) else []

/-- The flag was set at every check from `k` through `k + m - 1`. -/
def allActive (act : Nat → Bool) : Nat → Nat → Bool
  | _, 0 => true
  | k, m + 1 => act k && allActive act (k + 1) m

/-! ## Intent classifier (`process_input` helpers) -/

/-- Python `\w` on ASCII input. -/
def isWordChar (c : Char) : Bool := c.isAlphanum || c = '_'

/-- Python `\s` on ASCII input. -/
def isSpaceChar (c : Char) : Bool :=
  c = ' ' || c = '\t' || c = '\n' || c = '\r' || c = '\x0b' || c = '\x0c'

/-- `[a-zA-Z]`. -/
def isAsciiLetter (c : Char) : Bool :=
  ('a' ≤ c && c ≤ 'z') || ('A' ≤ c && c ≤ 'Z')

/-- One alternative of a `\b(w1|w2|...)\b` search matches at the current
position: `w` is a prefix of `s`, the previous character (if any) is not a
word character, and neither is the character following the match. -/
def matchWordAt (w : List Char) (prev : Option Char) (s : List Char) : Bool :=
  w.isPrefixOf s
    && (match prev with | none => true | some c => !isWordChar c)
    && (match s.drop w.length with | [] => true | c :: _ => !isWordChar c)

/-- `re.search` of `\b(w1|w2|...)\b` as a boolean: some alternative matches
at some position. -/
def containsWordAnyAux (ws : List (List Char)) : Option Char → List Char → Bool
  | prev, [] => ws.any (fun w => matchWordAt w prev [])
  | prev, c :: rest =>
    ws.any (fun w => matchWordAt w prev (c :: rest)) || containsWordAnyAux ws (some c) rest

/-- Boolean word search over the whole string. -/
def containsWordAny (ws : List (List Char)) (s : List Char) : Bool :=
  containsWordAnyAux ws none s

/-- Try `f n, f (n-1), ..., f 0` and return the first `some` — the greedy
(backtracking, longest-first) order of a bounded repetition. -/
def firstSomeDesc {α : Type} (f : Nat → Option α) : Nat → Option α
  | 0 => f 0
  | n + 1 =>
    match f (n + 1) with
    | some a => some a
    | none => firstSomeDesc f n

/-- Tail `[ap]\.?m\.?` of the time regex: returns the consumed length. -/
def matchAmPm (s : List Char) : Option Nat :=
  match s with
  | c :: rest =>
    if c = 'a' || c = 'p' then
      match rest with
      | '.' :: 'm' :: r2 => some (3 + (if r2.head? = some '.' then 1 else 0))
      | 'm' :: r2 => some (2 + (if r2.head? = some '.' then 1 else 0))
      | _ => none
    else none
  | [] => none

/-- Match of `at (\d+[:\d]*\s*[ap]\.?m\.?)` anchored at the start of `s`,
returning group 1.  Each bounded class repetition is tried longest-first,
mirroring the greedy backtracking of `re`. -/
def matchTimeFrom (s : List Char) : Option (List Char) :=
  match s with
  | 'a' :: 't' :: ' ' :: g =>
    let dmax := (g.takeWhile Char.isDigit).length
    if dmax = 0 then none
    else
      firstSomeDesc (fun k1' =>
        let k1 := k1' + 1
        let s1 := g.drop k1
        let cmax := (s1.takeWhile (fun c => c = ':' || c.isDigit)).length
        firstSomeDesc (fun k2 =>
          let s2 := s1.drop k2
          let wmax := (s2.takeWhile isSpaceChar).length
          firstSomeDesc (fun k3 =>
            match matchAmPm (s2.drop k3) with
            | some alen => some (g.take (k1 + k2 + k3 + alen))
            | none => none) wmax) cmax) (dmax - 1)
  | _ => none

/-- Match of `on ([a-zA-Z]+ \d+)` anchored at the start of `s`, returning
group 1.  A shorter letter run would be followed by a letter, not the
literal space, so only the maximal run can continue. -/
def matchDateFrom (s : List Char) : Option (List Char) :=
  match s with
  | 'o' :: 'n' :: ' ' :: rest =>
    let letters := rest.takeWhile isAsciiLetter
    if letters.length = 0 then none
    else
      match rest.drop letters.length with
      | ' ' :: r2 =>
        let ds := r2.takeWhile Char.isDigit
        if ds.length = 0 then none else some (letters ++ ' ' :: ds)
      | _ => none
  | _ => none

/-- `(.+)` with `.` excluding newline: the maximal nonempty run. -/
def dotPlus (s : List Char) : Option (List Char) :=
  let r := s.takeWhile (fun c => c ≠ '\n')
  if r.length = 0 then none else some r

/-- `for\s+` then `(.+)`, with greedy backtracking inside `\s+`. -/
def forSpThen (s1 : List Char) : Option (List Char) :=
  if ['f', 'o', 'r'].isPrefixOf s1 then
    let s2 := s1.drop 3
    let m := (s2.takeWhile isSpaceChar).length
    if m = 0 then none
    else firstSomeDesc (fun k' => dotPlus (s2.drop (k' + 1))) (m - 1)
  else none

/-- `\s+(?:for\s+)?(.+)` after the keyword of the query regex: spaces are
consumed longest-first, the optional `for` group is preferred, group 2 is
returned. -/
def queryAfterKw (s : List Char) : Option (List Char) :=
  let wmax := (s.takeWhile isSpaceChar).length
  if wmax = 0 then none
  else
    firstSomeDesc (fun k' =>
      let s1 := s.drop (k' + 1)
      match forSpThen s1 with
      | some g => some g
      | none => dotPlus s1) (wmax - 1)

/-- Match of `(search|find|look up)\s+(?:for\s+)?(.+)` anchored at the start
of `s`, returning group 2; alternatives are tried in written order. -/
def matchQueryFrom (s : List Char) : Option (List Char) :=
  match (if (String.toList "search").isPrefixOf s then queryAfterKw (s.drop 6) else none) with
  | some g => some g
  | none =>
    match (if (String.toList "find").isPrefixOf s then queryAfterKw (s.drop 4) else none) with
    | some g => some g
    | none =>
      if (String.toList "look up").isPrefixOf s then queryAfterKw (s.drop 7) else none

/-- Match of `to\s+([a-zA-Z]+)` anchored at the start of `s`, returning
group 1. -/
def matchRecipFrom (s : List Char) : Option (List Char) :=
  match s with
  | 't' :: 'o' :: rest =>
    let m := (rest.takeWhile isSpaceChar).length
    if m = 0 then none
    else
      firstSomeDesc (fun k' =>
        let r := (rest.drop (k' + 1)).takeWhile isAsciiLetter
        if r.length = 0 then none else some r) (m - 1)
  | _ => none

/-- `re.search`: try the anchored matcher at each position, leftmost first. -/
def scanFor (f : List Char → Option (List Char)) : List Char → Option (List Char)
  | [] => f []
  | c :: rest =>
    match f (c :: rest) with
    | some g => some g
    | none => scanFor f rest

/-- Python dict assignment on a key of an insertion-ordered association
list: overwrite in place when present, else append. -/
def dictSet (l : List (String × String)) (k v : String) : List (String × String) :=
  match l with
  | [] => [(k, v)]
  | (k', v') :: rest => if k' = k then (k, v) :: rest else (k', v') :: dictSet rest k v

/-- The `context["time"]` sub-dictionary. -/
structure TimeCtx where
  hour : Option Int := none
deriving DecidableEq, Repr

/-- The context dictionary keys `_refine_intent_with_context` reads. -/
structure Context where
  app : Option String := none
  location : Option String := none
  time : Option TimeCtx := none
deriving DecidableEq, Repr

/-- Dict truthiness of a context: an empty dict is falsy in
`if context:`. -/
def Context.isEmpty (c : Context) : Bool :=
  c.app.isNone && c.location.isNone && c.time.isNone

/-- The intent dictionary built by `_recognize_intent`. -/
structure Intent where
  primary : String
  confidence : ℚ
  entities : List (String × String)
  context : Context
deriving DecidableEq, Repr

/-- `_refine_intent_with_context(intent, context)`: the four in-place
adjustments, applied in program order to the intent. -/
def refineIntentWithContext (intent : Intent) (context : Context) : Intent :=
  let i1 := if context.app = some "messaging" ∧ intent.primary = "communication" then
              { intent with confidence := min 1 (intent.confidence + 1/10) }
            else intent
  let i2 := if context.app = some "calendar" ∧ i1.primary = "reminder" then
              { i1 with primary := "calendar", confidence := min 1 (i1.confidence + 5/100) }
            else i1
  let i3 := if context.location = some "home" ∧ i2.primary = "reminder" then
              { i2 with entities := dictSet i2.entities "location" "home" }
            else i2
  match context.time with
  | some tc =>
    let h := tc.hour.getD 0
    if 5 ≤ h ∧ h ≤ 9 ∧ i3.primary = "unknown" then
      { i3 with primary := "morning_routine", confidence := 6/10 }
    else i3
  | none => i3

/-- `_recognize_intent(text, context)`: ordered rule evaluation over the
lowercased text, each rule a word-boundary keyword search with a fixed
confidence and a rule-specific entity regex; then the context refinement
pass when the context dict is truthy. -/
def recognizeIntent (text : String) (context : Option Context) : Intent :=
  let t := text.toList.map Char.toLower
  let base : Intent :=
    { primary := "unknown", confidence := 1/2, entities := [],
      context := context.getD {} }
  let intent :=
    if containsWordAny [String.toList "remind", String.toList "reminder",
        String.toList "remember"] t then
      let i := { base with primary := "reminder", confidence := 8/10 }
      match scanFor matchTimeFrom t with
      | some g => { i with entities := dictSet i.entities "time" (String.mk g) }
      | none => i
    else if containsWordAny [String.toList "schedule", String.toList "appointment",
        String.toList "meeting", String.toList "calendar"] t then
      let i := { base with primary := "calendar", confidence := 75/100 }
      match scanFor matchDateFrom t with
      | some g => { i with entities := dictSet i.entities "date" (String.mk g) }
      | none => i
    else if containsWordAny [String.toList "search", String.toList "find",
        String.toList "look up"] t then
      let i := { base with primary := "search", confidence := 7/10 }
      match scanFor matchQueryFrom t with
      | some g => { i with entities := dictSet i.entities "query" (String.mk g) }
      | none => i
    else if containsWordAny [String.toList "send", String.toList "message",
        String.toList "text", String.toList "call"] t then
      let i := { base with primary := "communication", confidence := 8/10 }
      match scanFor matchRecipFrom t with
      | some g => { i with entities := dictSet i.entities "recipient" (String.mk g) }
      | none => i
    else if containsWordAny [String.toList "help", String.toList "explain",
        String.toList "how do", String.toList "how to"] t then
      { base with primary := "help", confidence := 9/10 }
    else base
  match context with
  | some c => if c.isEmpty then intent else refineIntentWithContext intent c
  | none => intent

/-- `_recognize_intent` as a method on the engine: its body reads and
writes no attribute of `self`, so the state passes through untouched. -/
def recognizeIntentM (s : EngineState) (text : String) (context : Option Context) :
    Intent × EngineState :=
  (recognizeIntent text context, s)

/-! ## Lemmas on the due-task sweep -/

/-- History effect of executing a list of tasks in order at time `now`. -/
def histFold (now : Int) (h : List BehaviorRecord) (l : List Task) : List BehaviorRecord :=
  l.foldl (fun acc t => trimHistory (acc ++ [BehaviorRecord.taskExecution t now])) h

/-- Positions (offset by `n`) of the elements satisfying `p`, in order. -/
def idxWhereFrom (p : Task → Bool) : Nat → List Task → List Nat
  | _, [] => []
  | n, t :: ts => if p t then n :: idxWhereFrom p (n + 1) ts else idxWhereFrom p (n + 1) ts

theorem map_add_add (l : List Nat) (a b : Nat) :
    (l.map (· + a)).map (· + b) = l.map (· + (a + b)) := by
  rw [List.map_map]
  congr 1
  funext i
  simp only [Function.comp_apply]
  omega

theorem idxWhereFrom_shift (p : Task → Bool) (l : List Task) :
    ∀ n : Nat, idxWhereFrom p n l = (idxWhereFrom p 0 l).map (· + n) := by
  induction l with
  | nil => intro n; rfl
  | cons t ts ih =>
    intro n
    have e1 : idxWhereFrom p n (t :: ts)
        = if p t then n :: idxWhereFrom p (n + 1) ts else idxWhereFrom p (n + 1) ts := rfl
    have e0 : idxWhereFrom p 0 (t :: ts)
        = if p t then 0 :: idxWhereFrom p 1 ts else idxWhereFrom p 1 ts := rfl
    rw [e1, e0]
    by_cases h : p t = true
    · rw [if_pos h, if_pos h, ih (n + 1), ih 1, List.map_cons, map_add_add, Nat.add_comm 1 n]
      simp
    · rw [if_neg h, if_neg h, ih (n + 1), ih 1, map_add_add, Nat.add_comm 1 n]

theorem idxWhereFrom_ge (p : Task → Bool) (l : List Task) :
    ∀ n x, x ∈ idxWhereFrom p n l → n ≤ x := by
  induction l with
  | nil => intro n x hx; simp [idxWhereFrom] at hx
  | cons t ts ih =>
    intro n x hx
    by_cases h : p t = true
    · simp only [idxWhereFrom, h, if_true, List.mem_cons] at hx
      rcases hx with rfl | hx
      · exact Nat.le_refl x
      · exact Nat.le_of_succ_le (ih (n + 1) x hx)
    · simp only [idxWhereFrom, h, if_false] at hx
      exact Nat.le_of_succ_le (ih (n + 1) x hx)

theorem idxWhereFrom_pairwise (p : Task → Bool) (l : List Task) :
    ∀ n, (idxWhereFrom p n l).Pairwise (· < ·) := by
  induction l with
  | nil => intro n; exact List.Pairwise.nil
  | cons t ts ih =>
    intro n
    by_cases h : p t = true
    · simp only [idxWhereFrom, h, if_true]
      exact List.Pairwise.cons
        (fun x hx => Nat.lt_of_succ_le (idxWhereFrom_ge p ts (n + 1) x hx)) (ih (n + 1))
    · simp only [idxWhereFrom, h, if_false]
      exact ih (n + 1)

theorem insertDescNat_of_lt (i : Nat) (m : List Nat) (h : ∀ j ∈ m, i < j) :
    insertDescNat i m = m ++ [i] := by
  induction m with
  | nil => rfl
  | cons j js ih =>
    have hj : i < j := h j (List.mem_cons_self j js)
    simp only [insertDescNat]
    rw [if_neg (by omega)]
    rw [ih (fun x hx => h x (List.mem_cons_of_mem j hx))]
    rfl

theorem mem_insertDescNat (i x : Nat) (m : List Nat) :
    x ∈ insertDescNat i m ↔ x = i ∨ x ∈ m := by
  induction m with
  | nil => simp [insertDescNat]
  | cons j js ih =>
    simp only [insertDescNat]
    by_cases h : j ≤ i
    · rw [if_pos h]
      simp [List.mem_cons]
    · rw [if_neg h]
      simp only [List.mem_cons, ih]
      tauto

theorem mem_sortDesc (x : Nat) (l : List Nat) : x ∈ sortDesc l ↔ x ∈ l := by
  induction l with
  | nil => simp [sortDesc]
  | cons a l ih =>
    show x ∈ insertDescNat a (sortDesc l) ↔ _
    rw [mem_insertDescNat]
    simp [ih, List.mem_cons]

theorem sortDesc_of_pairwise_lt (l : List Nat) (h : l.Pairwise (· < ·)) :
    sortDesc l = l.reverse := by
  induction l with
  | nil => rfl
  | cons a l ih =>
    rw [List.pairwise_cons] at h
    show insertDescNat a (sortDesc l) = (a :: l).reverse
    rw [insertDescNat_of_lt a _ (fun j hj => h.1 j ((mem_sortDesc j l).1 hj)),
        ih h.2, List.reverse_cons]

theorem foldl_eraseIdx_map_succ (m : List Nat) :
    ∀ (t : Task) (ts : List Task),
      (m.map (· + 1)).foldl (fun l i => l.eraseIdx i) (t :: ts)
        = t :: m.foldl (fun l i => l.eraseIdx i) ts := by
  induction m with
  | nil => intro t ts; rfl
  | cons j js ih =>
    intro t ts
    simp only [List.map_cons, List.foldl_cons, List.eraseIdx_cons_succ]
    exact ih t (ts.eraseIdx j)

theorem foldl_eraseIdx_idxWhere (p : Task → Bool) (q : List Task) :
    ((idxWhereFrom p 0 q).reverse).foldl (fun l i => l.eraseIdx i) q
      = q.filter (fun t => !(p t)) := by
  induction q with
  | nil => rfl
  | cons t ts ih =>
    by_cases h : p t = true
    · have e : idxWhereFrom p 0 (t :: ts) = 0 :: (idxWhereFrom p 0 ts).map (· + 1) := by
        simp [idxWhereFrom, h, idxWhereFrom_shift p ts 1]
      rw [e, List.reverse_cons, List.foldl_append, ← List.map_reverse,
          foldl_eraseIdx_map_succ, ih]
      simp [List.filter_cons, h]
    · have e : idxWhereFrom p 0 (t :: ts) = (idxWhereFrom p 0 ts).map (· + 1) := by
        simp [idxWhereFrom, h, idxWhereFrom_shift p ts 1]
      rw [e, ← List.map_reverse, foldl_eraseIdx_map_succ, ih]
      simp [List.filter_cons, h]

theorem sweepLoop_spec (now : Int) (q : List Task) :
    ∀ (n : Nat) (s : EngineState),
      sweepLoop now (List.enumFrom n q) s
        = ({ s with behavior_history := histFold now s.behavior_history (q.filter (taskDue now)) },
           idxWhereFrom (taskDue now) n q) := by
  induction q with
  | nil => intro n s; rfl
  | cons t ts ih =>
    intro n s
    rw [List.enumFrom_cons]
    cases hst : t.scheduled_time with
    | none =>
      have hd : taskDue now t = true := by simp [taskDue, hst]
      simp only [sweepLoop, executeTask, hst, Bool.true_or, if_true, ih (n + 1)]
      simp [recordBehavior, List.filter_cons, hd, idxWhereFrom, histFold]
    | some st =>
      by_cases hle : st ≤ now
      · have hd : taskDue now t = true := by simp [taskDue, hst, hle]
        simp only [sweepLoop, executeTask, hst, if_pos hle, Bool.true_or, if_true, ih (n + 1)]
        simp [recordBehavior, List.filter_cons, hd, idxWhereFrom, histFold]
      · have hd : taskDue now t = false := by simp [taskDue, hst, hle]
        simp only [sweepLoop, hst, if_neg hle, ih (n + 1)]
        simp [List.filter_cons, hd, idxWhereFrom]

theorem processTaskQueue_spec (now : Int) (s : EngineState) :
    processTaskQueue now s
      = { s with
          behavior_history := histFold now s.behavior_history
            (s.task_queue.filter (taskDue now)),
          task_queue := s.task_queue.filter (fun t => !(taskDue now t)) } := by
  simp only [processTaskQueue]
  rw [List.enum_eq_enumFrom, sweepLoop_spec now s.task_queue 0 s]
  rw [sortDesc_of_pairwise_lt _ (idxWhereFrom_pairwise (taskDue now) s.task_queue 0),
      foldl_eraseIdx_idxWhere]

/-- C1: in a sweep of `_process_task_queue` at time `now`, a task with no
`scheduled_time` is due at once and a task scheduled at `t` is due exactly
when `t <= now`; every due task is executed (its execution record is
appended to the history, in queue order) and — execution having succeeded
or `remove_on_failure` defaulting to true — removed, while the
collect-then-delete-descending removal leaves exactly the non-due tasks in
the queue, in their original order. -/
theorem one_shot_sweep_correct (now : Int) (s : EngineState) :
    (processTaskQueue now s).task_queue = s.task_queue.filter (fun t => !(taskDue now t))
    ∧ (processTaskQueue now s).behavior_history
        = histFold now s.behavior_history (s.task_queue.filter (taskDue now))
    ∧ (processTaskQueue now s).recurring_tasks = s.recurring_tasks
    ∧ (∀ t : Task, t.scheduled_time = none → taskDue now t = true)
    ∧ (∀ (t : Task) (st : Int), t.scheduled_time = some st → taskDue now t = decide (st ≤ now)) := by
  rw [processTaskQueue_spec]
  refine ⟨rfl, rfl, rfl, ?_, ?_⟩
  · intro t ht
    simp [taskDue, ht]
  · intro t st ht
    simp [taskDue, ht]

/-- Witness for C1 at concrete inputs. -/
theorem one_shot_sweep_correct_witness :
    taskDue 7 ({} : Task) = true
    ∧ taskDue 7 ({ scheduled_time := some 3 } : Task) = decide ((3 : Int) ≤ 7) :=
  ⟨(one_shot_sweep_correct 7 emptyEngine).2.2.2.1 {} rfl,
   (one_shot_sweep_correct 7 emptyEngine).2.2.2.2 { scheduled_time := some 3 } 3 rfl⟩

/-- C10 (implicit): `_execute_task` returns `True` on every task — the
handler dispatch only logs, so the `except` branch returning `False` is
unreachable — after first appending a `task_execution` record to the
behavior history; consequently the sweep removes every due task from the
queue, whatever its `remove_on_failure` flag. -/
theorem execute_task_total_success (s : EngineState) (now : Int) (t : Task) :
    (executeTask s now t).1 = true
    ∧ (executeTask s now t).2.behavior_history
        = trimHistory (s.behavior_history ++ [BehaviorRecord.taskExecution t now])
    ∧ (executeTask s now t).2.task_queue = s.task_queue
    ∧ (processTaskQueue now s).task_queue
        = s.task_queue.filter (fun u => !(taskDue now u)) :=
  ⟨rfl, rfl, rfl, by rw [processTaskQueue_spec]⟩

/-! ## Lemmas on the recurring-task sweep -/

theorem sweepRecurring_spec (now : Int) (draws : Nat → Bool) (l : List Task) :
    ∀ i : Nat,
      sweepRecurring now draws l i
        = ((List.enumFrom i l).map
             (fun p => if fires now (draws p.1) p.2 then
                { p.2 with last_execution := some now } else p.2),
           ((List.enumFrom i l).filter (fun p => fires now (draws p.1) p.2)).map
             (fun p => { p.2 with scheduled_time := some now })) := by
  induction l with
  | nil => intro i; rfl
  | cons t ts ih =>
    intro i
    rw [List.enumFrom_cons]
    cases ha : t.active.getD true with
    | false =>
      have hf : fires now (draws i) t = false := by simp [fires, ha]
      simp [sweepRecurring, ha, hf, ih (i + 1), List.filter_cons]
    | true =>
      cases hs : shouldExecute now (draws i) t with
      | false =>
        have hf : fires now (draws i) t = false := by simp [fires, hs]
        simp [sweepRecurring, ha, hs, hf, ih (i + 1), List.filter_cons]
      | true =>
        have hf : fires now (draws i) t = true := by simp [fires, ha, hs]
        simp [sweepRecurring, ha, hs, hf, ih (i + 1), List.filter_cons]

/-- C2: `_check_recurring_tasks` destroys no record of the recurring table:
each slot is mapped to itself, except that a firing slot gets
`last_execution := now` (once, all other fields untouched); for each firing
slot exactly one copy stamped `scheduled_time = now` is appended to the
one-shot queue, in table order; history, patterns and the persistence
counter are untouched. -/
theorem recurring_sweep_preserves_records (now : Int) (draws : Nat → Bool) (s : EngineState) :
    (checkRecurringTasks now draws s).recurring_tasks
      = s.recurring_tasks.enum.map
          (fun p => if fires now (draws p.1) p.2 then
             { p.2 with last_execution := some now } else p.2)
    ∧ (checkRecurringTasks now draws s).task_queue
      = s.task_queue
          ++ (s.recurring_tasks.enum.filter (fun p => fires now (draws p.1) p.2)).map
              (fun p => { p.2 with scheduled_time := some now })
    ∧ (checkRecurringTasks now draws s).recurring_tasks.length = s.recurring_tasks.length
    ∧ (checkRecurringTasks now draws s).behavior_history = s.behavior_history
    ∧ (checkRecurringTasks now draws s).intent_patterns = s.intent_patterns
    ∧ (checkRecurringTasks now draws s).save_count = s.save_count := by
  have h := sweepRecurring_spec now draws s.recurring_tasks 0
  simp [checkRecurringTasks, List.enum_eq_enumFrom, h, List.enumFrom_length]

/-- C3: an active recurring task with `interval_hours = 24` and no
`last_execution` fires on the first sweep; once stamped
`last_execution = now`, it does not fire on a sweep at `later` while
`later - now < 24` hours, and fires again as soon as 24 hours have
elapsed. -/
theorem interval24_first_fire_and_refire (t : Task) (now later : Int) (d d' : Bool)
    (h1 : t.interval_hours = some 24) (h2 : t.last_execution = none)
    (h3 : t.active.getD true = true) :
    fires now d t = true
    ∧ (later - now < 24 * 3600 →
        fires later d' { t with last_execution := some now } = false)
    ∧ (24 * 3600 ≤ later - now →
        fires later d' { t with last_execution := some now } = true) := by
  refine ⟨?_, ?_, ?_⟩
  · simp [fires, h3, shouldExecute, h1, h2]
  · intro h
    simp only [fires, shouldExecute, h1, h3, Bool.true_and]
    simp
    omega
  · intro h
    simp only [fires, shouldExecute, h1, h3, Bool.true_and]
    simp
    omega

/-- The concrete interval task of the C3 witness. -/
def intervalTask : Task :=
  { type_ := some "daily", interval_hours := some 24, active := some true }

/-- Witness for C3 at a concrete task and concrete sweep times. -/
theorem interval24_first_fire_and_refire_witness :
    fires 1000 true intervalTask = true
    ∧ ((87000 : Int) - 1000 < 24 * 3600 →
        fires 87000 false { intervalTask with last_execution := some 1000 } = false)
    ∧ ((24 : Int) * 3600 ≤ 87000 - 1000 →
        fires 87000 false { intervalTask with last_execution := some 1000 } = true) :=
  interval24_first_fire_and_refire intervalTask 1000 87000 true false rfl rfl rfl

/-! ## Task-store operations -/

/-- A task carrying two recurrence discriminators at once. -/
def twoPatternTask : Task :=
  { type_ := some "reminder", interval_hours := some 1, day_of_week := some 0 }

/-- C4 counterexample: `add_recurring_task` only checks that at least one of
`interval_hours`, `day_of_week`, `trigger_pattern` is present (`any(...)`),
so a task carrying two discriminators is accepted and appended — it is not
rejected as the claim's "exactly one" reading requires. -/
theorem add_recurring_two_discriminators_accepted :
    (addRecurringTask 0 emptyEngine twoPatternTask).1 = true
    ∧ (addRecurringTask 0 emptyEngine twoPatternTask).2.recurring_tasks
        = [{ twoPatternTask with created := some 0, active := some true }] := by
  constructor <;> rfl

/-- C4 (amended): `add_recurring_task` fails and leaves the state unchanged
when `type` is absent or when none of the three recurrence discriminators
is present; when a `type` and at least one discriminator are present
(several are accepted too) it stamps `created`, sets `active = true`,
appends to the recurring table, bumps the persistence count, and
succeeds. -/
theorem add_recurring_validation (now : Int) (s : EngineState) (t : Task) :
    (t.type_ = none → addRecurringTask now s t = (false, s))
    ∧ (t.interval_hours = none → t.day_of_week = none → t.trigger_pattern = none →
        addRecurringTask now s t = (false, s))
    ∧ (t.type_.isSome = true →
        (t.interval_hours.isSome || t.day_of_week.isSome || t.trigger_pattern.isSome) = true →
        (addRecurringTask now s t).1 = true
        ∧ (addRecurringTask now s t).2.recurring_tasks
            = s.recurring_tasks ++ [{ t with created := some now, active := some true }]
        ∧ (addRecurringTask now s t).2.save_count = s.save_count + 1
        ∧ (addRecurringTask now s t).2.task_queue = s.task_queue) := by
  refine ⟨?_, ?_, ?_⟩
  · intro h
    simp [addRecurringTask, h]
  · intro h1 h2 h3
    cases ht : t.type_ with
    | none => simp [addRecurringTask, ht]
    | some ty => simp [addRecurringTask, ht, h1, h2, h3]
  · intro ht hd
    cases ht2 : t.type_ with
    | none => rw [ht2] at ht; simp at ht
    | some ty =>
      have hcond : (t.interval_hours.isNone && t.day_of_week.isNone
          && t.trigger_pattern.isNone) = false := by
        cases hi : t.interval_hours <;> cases hw : t.day_of_week
          <;> cases hp : t.trigger_pattern <;> simp_all
      refine ⟨?_, ?_, ?_, ?_⟩ <;> simp [addRecurringTask, ht2, hcond, saveIntentData]

/-- The valid recurring task of the C4 witness. -/
def goodRecurringTask : Task := { type_ := some "daily", interval_hours := some 24 }

/-- Witness for C4 (amended) at a concrete valid task. -/
theorem add_recurring_validation_witness :
    (addRecurringTask 5 emptyEngine goodRecurringTask).1 = true
    ∧ (addRecurringTask 5 emptyEngine goodRecurringTask).2.recurring_tasks
        = emptyEngine.recurring_tasks
            ++ [{ goodRecurringTask with created := some 5, active := some true }]
    ∧ (addRecurringTask 5 emptyEngine goodRecurringTask).2.save_count
        = emptyEngine.save_count + 1
    ∧ (addRecurringTask 5 emptyEngine goodRecurringTask).2.task_queue
        = emptyEngine.task_queue :=
  (add_recurring_validation 5 emptyEngine goodRecurringTask).2.2 rfl rfl

/-- C5: `add_task` on a task without a `type` fails and leaves the state
unchanged (nothing queued, nothing persisted); with a `type` it stamps
`created`, appends to the queue, bumps the persistence count, and
succeeds. -/
theorem add_task_validation (now : Int) (s : EngineState) (t : Task) :
    (t.type_ = none → addTask now s t = (false, s))
    ∧ (t.type_.isSome = true →
        (addTask now s t).1 = true
        ∧ (addTask now s t).2.task_queue = s.task_queue ++ [{ t with created := some now }]
        ∧ (addTask now s t).2.save_count = s.save_count + 1
        ∧ (addTask now s t).2.recurring_tasks = s.recurring_tasks) := by
  refine ⟨?_, ?_⟩
  · intro h
    simp [addTask, h]
  · intro ht
    cases ht2 : t.type_ with
    | none => rw [ht2] at ht; simp at ht
    | some ty => refine ⟨?_, ?_, ?_, ?_⟩ <;> simp [addTask, ht2, saveIntentData]

/-- Witness for C5: the empty task is rejected with the queue unchanged, a
typed task is accepted. -/
theorem add_task_validation_witness :
    addTask 3 emptyEngine {} = (false, emptyEngine)
    ∧ (addTask 3 emptyEngine { type_ := some "reminder" }).1 = true :=
  ⟨(add_task_validation 3 emptyEngine {}).1 rfl,
   ((add_task_validation 3 emptyEngine { type_ := some "reminder" }).2 rfl).1⟩

/-- Three distinguishable queued tasks for the removal scenario. -/
def taskA : Task := { type_ := some "reminder", content := some "a" }

def taskB : Task := { type_ := some "reminder", content := some "b" }

def taskC : Task := { type_ := some "reminder", content := some "c" }

/-- A queue of three tasks. -/
def threeTaskEngine : EngineState := { emptyEngine with task_queue := [taskA, taskB, taskC] }

/-- C6 counterexample: after `remove_task(1)` on a three-task queue, a
second `remove_task(1)` runs against a two-task queue, where index 1 is
still valid — it returns success (`True`), not the NotFound failure the
claim states. -/
theorem remove_task_second_call_succeeds :
    (removeTask (removeTask threeTaskEngine 1).2 1).1 = true := by decide

/-- C6 (amended): `remove_task(index)` succeeds exactly when the index lies
in the current queue's range, and on failure the state is unchanged; in the
three-task scenario the second `remove_task(1)` SUCCEEDS against the
now-shorter queue — removing the task that was originally at index 2 —
and the original index-0 task survives both calls. -/
theorem remove_task_by_index :
    (∀ (s : EngineState) (i : Int),
        (removeTask s i).1 = decide (0 ≤ i ∧ i < (s.task_queue.length : Int))
        ∧ ((removeTask s i).1 = false → (removeTask s i).2 = s))
    ∧ (removeTask threeTaskEngine 1).1 = true
    ∧ (removeTask threeTaskEngine 1).2.task_queue = [taskA, taskC]
    ∧ (removeTask (removeTask threeTaskEngine 1).2 1).1 = true
    ∧ (removeTask (removeTask threeTaskEngine 1).2 1).2.task_queue = [taskA] := by
  refine ⟨?_, by decide, by decide, by decide, by decide⟩
  intro s i
  constructor
  · by_cases h : 0 ≤ i ∧ i < (s.task_queue.length : Int)
    · simp [removeTask, h]
    · simp [removeTask, h]
  · intro hfail
    by_cases h : 0 ≤ i ∧ i < (s.task_queue.length : Int)
    · simp [removeTask, h] at hfail
    · simp [removeTask, h]

/-- Witness for C6 (amended): an out-of-range removal on the empty queue
reports failure and leaves the state unchanged. -/
theorem remove_task_by_index_witness :
    (removeTask emptyEngine 4).1
      = decide ((0 : Int) ≤ 4 ∧ (4 : Int) < (emptyEngine.task_queue.length : Int))
    ∧ (removeTask emptyEngine 4).2 = emptyEngine :=
  ⟨(remove_task_by_index.1 emptyEngine 4).1,
   (remove_task_by_index.1 emptyEngine 4).2 (by decide)⟩

/-! ## The background loop -/

theorem backgroundLoop_get (act : Nat → Bool) (out : Nat → CycleOutcome) :
    ∀ (n k j : Nat),
      (backgroundLoop act out n k)[j]?
        = if decide (j < n) && allActive act k (j + 1)
          then some (cycleSleep (out (k + j))) else none := by
  intro n
  induction n with
  | zero =>
    intro k j
    simp [backgroundLoop]
  | succ n ih =>
    intro k j
    have e : backgroundLoop act out (n + 1) k
        = if act k then cycleSleep (out k) :: backgroundLoop act out n (k + 1) else [] := rfl
    cases ha : act k with
    | false =>
      rw [e, if_neg (by simp [ha])]
      have hall : allActive act k (j + 1) = false := by
        show (act k && allActive act (k + 1) j) = false
        rw [ha, Bool.false_and]
      simp [hall]
    | true =>
      rw [e, if_pos ha]
      cases j with
      | zero =>
        have hall : allActive act k 1 = true := by
          show (act k && allActive act (k + 1) 0) = true
          rw [ha]
          rfl
        simp [hall]
      | succ j =>
        rw [List.getElem?_cons_succ, ih (k + 1) j]
        have hc : (decide (j + 1 < n + 1)) = (decide (j < n)) := by
          rw [decide_eq_decide]
          omega
        have harg : k + 1 + j = k + (j + 1) := by omega
        have hact : allActive act k (j + 1 + 1) = (act k && allActive act (k + 1) (j + 1)) := rfl
        rw [hc, harg, hact, ha, Bool.true_and]

theorem backgroundLoop_length (act : Nat → Bool) (out out' : Nat → CycleOutcome) :
    ∀ n k, (backgroundLoop act out n k).length = (backgroundLoop act out' n k).length := by
  intro n
  induction n with
  | zero => intro k; rfl
  | succ n ih =>
    intro k
    cases ha : act k with
    | false => simp [backgroundLoop, ha]
    | true => simp [backgroundLoop, ha, ih (k + 1)]

/-- C7: the `j`-th cycle of `_background_loop` runs exactly when the
cooperative `active` flag was still set at every check up to `j` —
independently of which cycles raised — so an uncaught exception never
terminates the loop and only a cleared flag (`stop`) ends it; a cycle that
raised is followed by the 60-second backoff sleep, a normal cycle by the
10-second sleep. -/
theorem background_loop_survives_errors (act : Nat → Bool) (out out' : Nat → CycleOutcome)
    (n j : Nat) :
    (backgroundLoop act out n 0)[j]?
      = (if decide (j < n) && allActive act 0 (j + 1)
         then some (cycleSleep (out j)) else none)
    ∧ (backgroundLoop act out n 0).length = (backgroundLoop act out' n 0).length
    ∧ cycleSleep CycleOutcome.err = 60
    ∧ cycleSleep CycleOutcome.ok = 10 := by
  refine ⟨?_, backgroundLoop_length act out out' n 0, rfl, rfl⟩
  have h := backgroundLoop_get act out n 0 j
  simpa using h

/-! ## The intent classifier -/

/-- C8: classifying "remind me to call mom at 5pm" with no context yields
primary intent "reminder" at the fixed base confidence 8/10 (the module's
0.8), and the trailing time phrase is extracted into a non-empty "time"
entity, namely "5pm". -/
theorem classify_reminder_concrete :
    (recognizeIntent "remind me to call mom at 5pm" none).primary = "reminder"
    ∧ (recognizeIntent "remind me to call mom at 5pm" none).confidence = 8/10
    ∧ (recognizeIntent "remind me to call mom at 5pm" none).entities.lookup "time"
        = some "5pm"
    ∧ ((recognizeIntent "remind me to call mom at 5pm" none).entities.lookup "time").getD ""
        ≠ "" :=
  ⟨by decide, by rfl, by decide, by decide⟩

/-- C9: `_recognize_intent` together with `_refine_intent_with_context`
reads and writes no attribute of the engine: as a state transformer it is
the identity on the state (task queue, recurring table, behavior history
and pattern map included), and the output intent depends only on the
(text, context) pair — two invocations with equal inputs agree, whatever
the engine states. -/
theorem classify_deterministic_pure (s s' : EngineState) (t1 t2 : String)
    (c1 c2 : Option Context) (ht : t1 = t2) (hc : c1 = c2) :
    (recognizeIntentM s t1 c1).1 = (recognizeIntentM s' t2 c2).1
    ∧ (recognizeIntentM s t1 c1).2 = s := by
  subst ht
  subst hc
  exact ⟨rfl, rfl⟩

/-- Witness for C9 at concrete inputs and two different engine states. -/
theorem classify_deterministic_pure_witness :
    (recognizeIntentM emptyEngine "remind me" none).1
      = (recognizeIntentM threeTaskEngine "remind me" none).1
    ∧ (recognizeIntentM emptyEngine "remind me" none).2 = emptyEngine :=
  classify_deterministic_pure emptyEngine threeTaskEngine "remind me" "remind me"
    none none rfl rfl

end Ali
